import Mathlib

/-!
Verification development for the HOM delay-temperature map acquisition
repository (src/meas_dir.py and src/hom_scan.py).

The first part embeds `meas_dir.py`: the text-to-integer field parser
`_read_int_field`, the window-existence check with its surrounding
`try/except Exception: pass`, and the sampling loop of `meas_dir` together
with its event trace (reads and sleeps) and its mean / standard-deviation
reduction (numpy `mean` and `std` with `ddof = 0`).

The second part embeds `hom_scan.py`: the constants, the `np.arange`
grids, the Zaber binary frames, the per-line buffer handling, the
`np.savetxt` persistence, the sweep loops of `main`, and the
`try/finally` teardown discipline.
-/

namespace HomScan

/-! ### Channels read from the GUI -/

inductive Channel
  | V
  | H
  | C
  deriving DecidableEq, Repr

/-! ### Embedding of `_read_int_field` (meas_dir.py, lines 30-37)

The Python code does `int(str(txt).strip().replace(",", ""))`.  We model
Python `str.strip` (drop surrounding whitespace), the removal of every
comma, and Python `int` parsing (optional sign, digits, single
underscores allowed between digits).  An unparsable text yields `none`,
standing for the `ValueError` raised by `int`. -/

def isPySpace (c : Char) : Bool :=
  c = ' ' || c = '\t' || c = '\n' || c = '\r' || c = '\x0b' || c = '\x0c'

def pyStrip (l : List Char) : List Char :=
  ((l.dropWhile isPySpace).reverse.dropWhile isPySpace).reverse

def removeCommas (l : List Char) : List Char :=
  l.filter (fun c => c ≠ ',')

def digitVal (c : Char) : ℕ := c.toNat - 48

def pyDigitsAux (acc : ℕ) : List Char → Option ℕ
  | [] => some acc
  | '_' :: c :: cs => if c.isDigit then pyDigitsAux (acc * 10 + digitVal c) cs else none
  | '_' :: [] => none
  | c :: cs => if c.isDigit then pyDigitsAux (acc * 10 + digitVal c) cs else none

def pyDigits : List Char → Option ℕ
  | [] => none
  | c :: cs => if c.isDigit then pyDigitsAux (digitVal c) cs else none

def pyIntCore : List Char → Option ℤ
  | '+' :: cs => (pyDigits cs).map (fun (n : ℕ) => (n : ℤ))
  | '-' :: cs => (pyDigits cs).map (fun (n : ℕ) => -(n : ℤ))
  | cs => (pyDigits cs).map (fun (n : ℕ) => (n : ℤ))

/-- Embedding of the function read-int-field: strip the text, drop commas,
parse as a Python int. -/
def read_int_field (txt : String) : Option ℤ :=
  pyIntCore (removeCommas (pyStrip txt.data))

/-! ### Error kinds of the sampler -/

inductive MeasError
  | invalidArgument
  | parseError (raw : String)
  | sourceUnavailable (windowSpec : String)
  deriving DecidableEq, Repr

/-- The fake external reading source: whether `win_exists` reports the
window, and the text each `(iteration, channel)` read returns. -/
structure AutoItEnv where
  winExists : Bool
  text : ℕ → Channel → String

def defaultWindowSpec : String := "[Class:WindowsForms10.Window.8.app.0.33c0d9d]"

/-- Body of the sanity check in `meas_dir` (meas_dir.py, lines 76-78):
raise `RuntimeError` (source unavailable) when `win_exists` reports 0. -/
def winCheck (env : AutoItEnv) (spec : String) : Except MeasError Unit :=
  if env.winExists then .ok () else .error (.sourceUnavailable spec)

/-- The `try/except Exception: pass` wrapped around the check
(meas_dir.py, lines 75-81): any exception raised inside, including the
deliberately raised `RuntimeError` for a missing window, is swallowed and
the function continues. -/
def winCheckGuarded (env : AutoItEnv) (spec : String) : Except MeasError Unit :=
  match winCheck env spec with
  | .error _ => .ok ()
  | .ok _ => .ok ()

/-! ### The sampling loop of `meas_dir` (meas_dir.py, lines 83-94) -/

inductive MeasEvent
  | read (i : ℕ) (ch : Channel)
  | sleep
  deriving DecidableEq, Repr

/-- One loop iteration: read and parse V, then H, then C.  A parse
failure aborts the iteration with the `ValueError` of `int`, carrying the
raw text.  Returns the events performed and the outcome. -/
def readIter (env : AutoItEnv) (i : ℕ) :
    List MeasEvent × Except MeasError (ℤ × ℤ × ℤ) :=
  match read_int_field (env.text i .V) with
  | none => ([.read i .V], .error (.parseError (env.text i .V)))
  | some v =>
    match read_int_field (env.text i .H) with
    | none => ([.read i .V, .read i .H], .error (.parseError (env.text i .H)))
    | some h =>
      match read_int_field (env.text i .C) with
      | none => ([.read i .V, .read i .H, .read i .C],
                 .error (.parseError (env.text i .C)))
      | some c => ([.read i .V, .read i .H, .read i .C], .ok (v, h, c))

/-- The `for i in range(times)` loop, started at iteration `i` with `n`
iterations left.  After the three reads of an iteration the code sleeps
`sleep_between_reads`; the sleep is inside the loop body, so it also runs
after the final iteration.  On a parse failure the exception propagates:
no sleep, no further iterations, no partial result. -/
def collectFrom (env : AutoItEnv) (i : ℕ) :
    ℕ → List MeasEvent × Except MeasError (List ℤ × List ℤ × List ℤ)
  | 0 => ([], .ok ([], [], []))
  | n + 1 =>
    match readIter env i with
    | (evs, .error e) => (evs, .error e)
    | (evs, .ok (v, h, c)) =>
      match collectFrom env (i + 1) n with
      | (evs2, .error e) => (evs ++ [.sleep] ++ evs2, .error e)
      | (evs2, .ok (vs, hs, cs)) =>
        (evs ++ [.sleep] ++ evs2, .ok (v :: vs, h :: hs, c :: cs))

/-- The function `meas_dir` up to the statistics step: the `times <= 0` guard, the
(guarded, hence ineffective) window check, then the sampling loop.
Returns the event trace and the three per-channel sample lists. -/
def meas_dirSamples (env : AutoItEnv) (times : ℤ) :
    List MeasEvent × Except MeasError (List ℤ × List ℤ × List ℤ) :=
  if times ≤ 0 then ([], .error .invalidArgument)
  else
    match winCheckGuarded env defaultWindowSpec with
    | .error e => ([], .error e)
    | .ok _ => collectFrom env 0 times.toNat

/-! ### The statistics step (meas_dir.py, lines 96-100)

`np.mean` and `np.std` with the default `ddof = 0`: the mean divides by
the sample count, the standard deviation is the square root of the mean
squared deviation (population standard deviation). -/

noncomputable def npMean (xs : List ℝ) : ℝ := xs.sum / xs.length

noncomputable def npVarPop (xs : List ℝ) : ℝ :=
  ((xs.map (fun x => (x - npMean xs) ^ 2)).sum) / xs.length

noncomputable def npStd (xs : List ℝ) : ℝ := Real.sqrt (npVarPop xs)

def intsToR (xs : List ℤ) : List ℝ := xs.map (fun (z : ℤ) => (z : ℝ))

/-- The six floats returned by `meas_dir`. -/
structure ChannelReading where
  Vmean : ℝ
  Hmean : ℝ
  Cmean : ℝ
  Vstd : ℝ
  Hstd : ℝ
  Cstd : ℝ

/-- The whole of `meas_dir`: sample, then reduce each channel with
`np.mean` and `np.std`. -/
noncomputable def meas_dir (env : AutoItEnv) (times : ℤ) :
    Except MeasError ChannelReading :=
  match (meas_dirSamples env times).2 with
  | .error e => .error e
  | .ok (vs, hs, cs) =>
    .ok ⟨npMean (intsToR vs), npMean (intsToR hs), npMean (intsToR cs),
         npStd (intsToR vs), npStd (intsToR hs), npStd (intsToR cs)⟩

/-! Closed-form statistics written from the specification text: the
arithmetic mean of the supplied scalars with divisor `repetitions`, and
the population standard deviation with divisor `repetitions` (not
`repetitions - 1`). -/

noncomputable def specMean (n : ℕ) (xs : List ℝ) : ℝ := xs.sum / n

noncomputable def specPopStd (n : ℕ) (xs : List ℝ) : ℝ :=
  Real.sqrt (((xs.map (fun x => (x - specMean n xs) ^ 2)).sum) / n)

/-- The sequence of scalars a channel receives from the fake source. -/
def chanSeq (vals : ℕ → Channel → ℤ) (ch : Channel) (n : ℕ) : List ℤ :=
  (List.range n).map (fun i => vals i ch)

/-- Global read position `p` of a run: iteration `p / 3`, channel
`p % 3` in the fixed order V, H, C. -/
def chOfIdx (r : ℕ) : Channel :=
  if r = 0 then .V else if r = 1 then .H else .C

def readAt (env : AutoItEnv) (p : ℕ) : String :=
  env.text (p / 3) (chOfIdx (p % 3))

/-! ## Embedding of `hom_scan.py` -/

/-! ### Constants (hom_scan.py, lines 46-58)

All the reference constants are exact decimals, so the `float`
arithmetic of the script is modelled exactly over `ℚ`. -/

def T_START : ℚ := 45.0
def T_STOP : ℚ := 75.0
def T_STEP : ℚ := 0.2

def N_PAS_COUNTS : ℚ := 25.4 / 0.047625 * 1000
def STEP_COUNTS : ℚ := 10000

/-- Python `round` to an integer: round half to even. -/
def rhe (x : ℚ) : ℤ :=
  if x - ⌊x⌋ < 1 / 2 then ⌊x⌋
  else if 1 / 2 < x - ⌊x⌋ then ⌊x⌋ + 1
  else if ⌊x⌋ % 2 = 0 then ⌊x⌋ else ⌊x⌋ + 1

/-- The constant `N_GRID = int(round(N_PAS_COUNTS / STEP_COUNTS) + 1)`. -/
def N_GRID : ℕ := (rhe (N_PAS_COUNTS / STEP_COUNTS) + 1).toNat

/-- Length of `np.arange(start, stop, step)` for a positive step:
`max 0 ⌈(stop - start) / step⌉`. -/
def arangeLen (start stop step : ℚ) : ℕ :=
  (max 0 ⌈(stop - start) / step⌉).toNat

def arangeQ (start stop step : ℚ) : List ℚ :=
  (List.range (arangeLen start stop step)).map (fun (i : ℕ) => start + (i : ℚ) * step)

/-- The delay grid `Y_COUNTS = np.arange(0, N_PAS_COUNTS, STEP_COUNTS)`. -/
def Y_COUNTS : List ℚ := arangeQ 0 N_PAS_COUNTS STEP_COUNTS

/-- The temperature grid `T_vec = np.arange(T_START, T_STOP, T_STEP)`. -/
def T_vec : List ℚ := arangeQ T_START T_STOP T_STEP

/-- Python `int` on a float: truncation toward zero. -/
def truncQ (q : ℚ) : ℤ := if 0 ≤ q then ⌊q⌋ else ⌈q⌉

/-- Python `round(x, 1)`: one decimal, half to even. -/
def pyRound1 (q : ℚ) : ℚ := (rhe (q * 10) : ℚ) / 10

/-! ### Zaber binary frames (hom_scan.py, lines 97-127) -/

/-- One `BinaryCommand` written to the serial transport. -/
structure Frame where
  deviceId : ℤ
  commandCode : ℤ
  payload : Option ℤ
  deriving DecidableEq, Repr

/-- Embedding of `zaber_write`: the frame sent on the transport. -/
def zaber_write (deviceNumber commandNumber : ℤ) (data : Option ℤ) : Frame :=
  ⟨deviceNumber, commandNumber, data⟩

/-- Frame of `home_stage`: broadcast command 1, no payload. -/
def homeFrame : Frame := zaber_write 0 1 none

/-- Frame of `move_stage_abs`: broadcast command 20, payload the target counts. -/
def moveFrame (counts : ℤ) : Frame := zaber_write 0 20 (some counts)

/-! ### One measurement point and the line buffer -/

/-- The `(V, H, C, eV, eH, eC)` tuple returned by `measure_point`; also
the shape of one output row.  The value type is kept abstract: the
orchestrator only stores and persists the six scalars. -/
structure Reading (α : Type) where
  v : α
  h : α
  c : α
  ev : α
  eh : α
  ec : α
  deriving DecidableEq, Repr

def zeroReading {α : Type} [Zero α] : Reading α := ⟨0, 0, 0, 0, 0, 0⟩

/-- The six pre-allocated per-line arrays `line_V .. line_eC`
(hom_scan.py, lines 170-175). -/
structure LineBuffer (α : Type) where
  V : List α
  H : List α
  C : List α
  eV : List α
  eH : List α
  eC : List α
  deriving DecidableEq, Repr

/-- Allocation `np.zeros((N_GRID, 1))` for each of the six arrays. -/
def initBuf (α : Type) [Zero α] : LineBuffer α :=
  ⟨List.replicate N_GRID 0, List.replicate N_GRID 0, List.replicate N_GRID 0,
   List.replicate N_GRID 0, List.replicate N_GRID 0, List.replicate N_GRID 0⟩

/-- Reset `line_X.fill(0)` on all six arrays (hom_scan.py, lines 194-199):
in-place zeroing, the shape is kept. -/
def resetBuf {α : Type} [Zero α] (buf : LineBuffer α) : LineBuffer α :=
  ⟨buf.V.map (fun _ => 0), buf.H.map (fun _ => 0), buf.C.map (fun _ => 0),
   buf.eV.map (fun _ => 0), buf.eH.map (fun _ => 0), buf.eC.map (fun _ => 0)⟩

/-- Store `line_X[jj, 0] = X` on all six arrays (hom_scan.py, lines 209-214). -/
def setBuf {α : Type} (buf : LineBuffer α) (jj : ℕ) (r : Reading α) : LineBuffer α :=
  ⟨buf.V.set jj r.v, buf.H.set jj r.h, buf.C.set jj r.c,
   buf.eV.set jj r.ev, buf.eH.set jj r.eh, buf.eC.set jj r.ec⟩

/-- A sequence of `set` calls applied in order. -/
def applyWrites {α : Type} (ws : List (ℕ × Reading α)) (buf : LineBuffer α) :
    LineBuffer α :=
  ws.foldl (fun b w => setBuf b w.1 w.2) buf

/-! ### Persistence of one line (hom_scan.py, lines 223-240) -/

def headerStr : String := "V,H,C,eV,eH,eC"
def commentsMark : String := ""
def datSuffix : String := "_pump_ha_det_txikienaena_01.dat"

inductive FileLine (α : Type)
  | text (s : String)
  | row (r : Reading α)
  deriving DecidableEq, Repr

/-- Output of `np.savetxt(..., header=hdr, comments=mark)`: the header line
preceded by the comments mark, then the data rows, nothing else. -/
def savetxtLines {α : Type} (hdr mark : String) (rows : List (Reading α)) :
    List (FileLine α) :=
  FileLine.text (mark ++ hdr) :: rows.map FileLine.row

/-- Rows `np.vstack((line_V[:,0], ..., line_eC[:,0])).T`: one row per index. -/
def rowsOf {α : Type} [Zero α] (buf : LineBuffer α) : List (Reading α) :=
  (List.range buf.V.length).map (fun k =>
    ⟨buf.V.getD k 0, buf.H.getD k 0, buf.C.getD k 0,
     buf.eV.getD k 0, buf.eH.getD k 0, buf.eC.getD k 0⟩)

/-- One `.dat` file: its name embeds `round(tset, 1)` followed by the
fixed suffix, its content is the savetxt lines. -/
structure OutputFile (α : Type) where
  nameKey : ℚ
  nameTail : String
  lines : List (FileLine α)
  deriving DecidableEq, Repr

def mkFile {α : Type} [Zero α] (tset : ℚ) (buf : LineBuffer α) : OutputFile α :=
  ⟨pyRound1 tset, datSuffix, savetxtLines headerStr commentsMark (rowsOf buf)⟩

/-! ### The sweep loops of `main` (hom_scan.py, lines 179-243) -/

structure RunState (α : Type) where
  frames : List Frame
  files : List (OutputFile α)
  buf : LineBuffer α

/-- The inner delay sweep (hom_scan.py, lines 202-221): for each
position, send the move frame, measure, store at index `jj`, advance
`jj`.  A measurement failure propagates immediately. -/
def innerLoop {α : Type} (meas : ℕ → Except MeasError (Reading α)) :
    List ℚ → ℕ → List Frame → LineBuffer α →
    List Frame × LineBuffer α × Option MeasError
  | [], _, fs, buf => (fs, buf, none)
  | pos :: rest, jj, fs, buf =>
    let fs2 := fs ++ [moveFrame (truncQ pos)]
    match meas jj with
    | .error e => (fs2, buf, some e)
    | .ok r => innerLoop meas rest (jj + 1) fs2 (setBuf buf jj r)

/-- One outer-loop iteration for set point `tset`: home the stage, zero
the line arrays, run the delay sweep, and on completion write exactly one
output file.  On a measurement failure nothing is persisted. -/
def lineStep {α : Type} [Zero α] (meas : ℕ → Except MeasError (Reading α))
    (tset : ℚ) (st : RunState α) : RunState α × Option MeasError :=
  let fs1 := st.frames ++ [homeFrame]
  let buf1 := resetBuf st.buf
  match innerLoop meas Y_COUNTS 0 fs1 buf1 with
  | (fs2, buf2, some e) => (⟨fs2, st.files, buf2⟩, some e)
  | (fs2, buf2, none) => (⟨fs2, st.files ++ [mkFile tset buf2], buf2⟩, none)

/-- The outer temperature loop over `T_vec`: the first failure aborts the
remaining sweep.  `meas li jj` is the measurement outcome at temperature
line `li`, delay index `jj` (the sampler is an external collaborator
here; `measure_point` calls it through `meas_dir_1sec`). -/
def sweepLoop {α : Type} [Zero α] (meas : ℕ → ℕ → Except MeasError (Reading α)) :
    List ℚ → ℕ → RunState α → RunState α × Option MeasError
  | [], _, st => (st, none)
  | tset :: rest, li, st =>
    match lineStep (meas li) tset st with
    | (st2, some e) => (st2, some e)
    | (st2, none) => sweepLoop meas rest (li + 1) st2

/-! ### The `finally` teardown (hom_scan.py, lines 245-258) -/

/-- Which teardown steps can fail in a run. -/
structure TeardownEnv where
  zaberCloseFails : Bool
  tcStepFails : Bool

inductive BlockOutcome
  | completed
  | raised
  deriving DecidableEq

/-- A `try: body / except Exception: print(...)` block: the body is
always attempted; a failure is reported and never re-raised, so control
always continues past the block. -/
def guardedBlock (bodyFails : Bool) : BlockOutcome × Bool :=
  (BlockOutcome.completed, bodyFails)

structure TeardownResult where
  zaberCloseAttempted : Bool
  tcCloseAttempted : Bool
  tcStepAttempted : Bool
  zaberErrorReported : Bool
  tcErrorReported : Bool
  deriving DecidableEq, Repr

/-- The `finally` body: first the guarded `BinarySerial.close(port_y)`
block, then the guarded TC200 block.  The TC200 block only prints a
notice; the script performs no close call on the controller session
(the driver has no explicit close method).  Because the first block
swallows its exception, the second block is always reached. -/
def runTeardown (env : TeardownEnv) : TeardownResult :=
  let b1 := guardedBlock env.zaberCloseFails
  match b1.1 with
  | .raised => ⟨true, false, false, b1.2, false⟩
  | .completed =>
    let b2 := guardedBlock env.tcStepFails
    ⟨true, false, true, b1.2, b2.2⟩

/-! ### The whole of `main` -/

structure RunResult (α : Type) where
  frames : List Frame
  files : List (OutputFile α)
  buf : LineBuffer α
  teardown : TeardownResult
  outcome : Option MeasError

def initState (α : Type) [Zero α] : RunState α := ⟨[], [], initBuf α⟩

/-- The function `main`: the try-block runs the sweep over `T_vec`; the `finally`
block always runs the teardown; an exception from the sweep propagates
unchanged afterwards. -/
def mainRun {α : Type} [Zero α] (meas : ℕ → ℕ → Except MeasError (Reading α))
    (tEnv : TeardownEnv) : RunResult α :=
  let sw := sweepLoop meas T_vec 0 (initState α)
  ⟨sw.1.frames, sw.1.files, sw.1.buf, runTeardown tEnv, sw.2⟩

/-! ## Helper lemmas: the reference constants -/

theorem nPas_eq : N_PAS_COUNTS = 1600000 / 3 := by
  norm_num [N_PAS_COUNTS]

theorem quot_eq : N_PAS_COUNTS / STEP_COUNTS = 160 / 3 := by
  rw [nPas_eq]; norm_num [STEP_COUNTS]

theorem floor_quot : ⌊N_PAS_COUNTS / STEP_COUNTS⌋ = 53 := by
  rw [quot_eq, Int.floor_eq_iff]; norm_num

theorem rhe_quot : rhe (N_PAS_COUNTS / STEP_COUNTS) = 53 := by
  rw [rhe, floor_quot, quot_eq]
  norm_num

theorem nGrid_eq : N_GRID = 54 := by
  rw [N_GRID, rhe_quot]; rfl

theorem ceil_quot : ⌈(N_PAS_COUNTS - 0) / STEP_COUNTS⌉ = 54 := by
  rw [sub_zero, quot_eq, Int.ceil_eq_iff]; norm_num

theorem yCounts_len : Y_COUNTS.length = 54 := by
  rw [Y_COUNTS, arangeQ, List.length_map, List.length_range, arangeLen, ceil_quot]
  decide

theorem tVec_len : T_vec.length = 150 := by
  have h : ⌈(T_STOP - T_START) / T_STEP⌉ = 150 := by
    have h2 : (T_STOP - T_START) / T_STEP = 150 := by
      norm_num [T_START, T_STOP, T_STEP]
    rw [h2, Int.ceil_eq_iff]; norm_num
  rw [T_vec, arangeQ, List.length_map, List.length_range, arangeLen, h]
  decide

theorem tVec_cons : ∃ t ts, T_vec = t :: ts := by
  have h : T_vec ≠ [] := by
    intro h
    have h2 := tVec_len
    rw [h] at h2
    simp at h2
  exact List.exists_cons_of_ne_nil h

/-! ## Helper lemmas: sequences of writes into a list -/

/-- Writes `f jj, f (jj+1), …` into consecutive positions, as the inner
loop does on one channel column. -/
def setsFrom {β : Type} (f : ℕ → β) : ℕ → ℕ → List β → List β
  | _, 0, l => l
  | jj, n + 1, l => setsFrom f (jj + 1) n (l.set jj (f jj))

theorem setsFrom_length {β : Type} (f : ℕ → β) :
    ∀ (n jj : ℕ) (l : List β), (setsFrom f jj n l).length = l.length := by
  intro n
  induction n with
  | zero => intro jj l; rfl
  | succ n ih =>
    intro jj l
    rw [setsFrom, ih, List.length_set]

theorem setsFrom_getD {β : Type} (f : ℕ → β) (d : β) :
    ∀ (n jj : ℕ) (l : List β) (k : ℕ),
      (setsFrom f jj n l).getD k d =
        if jj ≤ k ∧ k < jj + n ∧ k < l.length then f k else l.getD k d := by
  intro n
  induction n with
  | zero =>
    intro jj l k
    have h : ¬(jj ≤ k ∧ k < jj + 0 ∧ k < l.length) := by omega
    simp only [setsFrom]
    rw [if_neg h]
  | succ n ih =>
    intro jj l k
    rw [setsFrom, ih, List.length_set]
    by_cases h1 : jj + 1 ≤ k ∧ k < jj + 1 + n ∧ k < l.length
    · have h2 : jj ≤ k ∧ k < jj + (n + 1) ∧ k < l.length := by omega
      simp [h1, h2]
    · simp only [h1, if_false]
      rw [List.getD_eq_getElem?_getD, List.getElem?_set]
      by_cases h3 : jj = k
      · subst h3
        by_cases h4 : jj < l.length
        · have h5 : jj ≤ jj ∧ jj < jj + (n + 1) ∧ jj < l.length := by omega
          simp [h4, h5]
        · have h5 : ¬(jj ≤ jj ∧ jj < jj + (n + 1) ∧ jj < l.length) := by omega
          have h6 : l[jj]? = none := by
            rw [List.getElem?_eq_none_iff]; omega
          simp [h4, h5, List.getD_eq_getElem?_getD, h6]
      · have h5 : ¬(jj ≤ k ∧ k < jj + (n + 1) ∧ k < l.length) := by omega
        simp [h3, h5, List.getD_eq_getElem?_getD]

theorem getD_map_zero {α : Type} [Zero α] :
    ∀ (l : List α) (k : ℕ), (l.map (fun _ => (0 : α))).getD k 0 = 0 := by
  intro l
  induction l with
  | nil => intro k; rfl
  | cons a l ih =>
    intro k
    cases k with
    | zero => rfl
    | succ k => exact ih k

/-! ## Helper lemmas: the sampling loop of `meas_dir` -/

theorem winCheckGuarded_ok (env : AutoItEnv) (spec : String) :
    winCheckGuarded env spec = .ok () := by
  rw [winCheckGuarded]
  cases h : winCheck env spec <;> rfl

/-- Event trace and samples of a fully parsing stretch of the loop. -/
theorem collectFrom_ok (env : AutoItEnv) (vals : ℕ → Channel → ℤ) :
    ∀ (n i : ℕ),
      (∀ p, i ≤ p → p < i + n → ∀ ch, read_int_field (env.text p ch) = some (vals p ch)) →
      collectFrom env i n =
        (((List.range' i n).map
            (fun p => [MeasEvent.read p .V, .read p .H, .read p .C, .sleep])).flatten,
         .ok ((List.range' i n).map (fun p => vals p .V),
              (List.range' i n).map (fun p => vals p .H),
              (List.range' i n).map (fun p => vals p .C))) := by
  intro n
  induction n with
  | zero => intro i _; rfl
  | succ n ih =>
    intro i hp
    have hV := hp i (le_refl i) (by omega) Channel.V
    have hH := hp i (le_refl i) (by omega) Channel.H
    have hC := hp i (le_refl i) (by omega) Channel.C
    have hrest := ih (i + 1) (fun p h1 h2 ch => hp p (by omega) (by omega) ch)
    simp only [collectFrom, readIter, hV, hH, hC, hrest]
    simp [List.range'_succ]

/-- A parse failure at global read position `k` aborts the call with the
`ValueError` of that read; no partial result is produced. -/
theorem collectFrom_err (env : AutoItEnv) (k : ℕ) :
    ∀ (n i : ℕ), 3 * i ≤ k → k < 3 * i + 3 * n →
      (∀ p, 3 * i ≤ p → p < k → (read_int_field (readAt env p)).isSome = true) →
      read_int_field (readAt env k) = none →
      (collectFrom env i n).2 = .error (.parseError (readAt env k)) := by
  intro n
  induction n with
  | zero => intro i h1 h2; omega
  | succ n ih =>
    intro i h1 h2 hbefore hfail
    have hVat : readAt env (3 * i) = env.text i .V := by
      simp [readAt, chOfIdx, Nat.mul_div_cancel_left, Nat.mul_mod_right]
    have hHat : readAt env (3 * i + 1) = env.text i .H := by
      have hd : (3 * i + 1) / 3 = i := by omega
      have hm : (3 * i + 1) % 3 = 1 := by omega
      simp [readAt, hd, hm, chOfIdx]
    have hCat : readAt env (3 * i + 2) = env.text i .C := by
      have hd : (3 * i + 2) / 3 = i := by omega
      have hm : (3 * i + 2) % 3 = 2 := by omega
      simp [readAt, hd, hm, chOfIdx]
    rcases Nat.lt_or_ge k (3 * i + 3) with hk | hk
    · -- the failing read is inside iteration i
      rcases Nat.lt_trichotomy k (3 * i + 1) with hk1 | hk1 | hk1
      · have hkV : k = 3 * i := by omega
        subst hkV
        rw [hVat] at hfail
        simp [collectFrom, readIter, hfail, hVat]
      · subst hk1
        rw [hHat] at hfail
        have hV : (read_int_field (env.text i .V)).isSome = true := by
          rw [← hVat]; exact hbefore (3 * i) (le_refl _) (by omega)
        rcases Option.isSome_iff_exists.mp hV with ⟨v, hv⟩
        simp [collectFrom, readIter, hv, hfail, hHat]
      · have hkC : k = 3 * i + 2 := by omega
        subst hkC
        rw [hCat] at hfail
        have hV : (read_int_field (env.text i .V)).isSome = true := by
          rw [← hVat]; exact hbefore (3 * i) (le_refl _) (by omega)
        have hH : (read_int_field (env.text i .H)).isSome = true := by
          rw [← hHat]; exact hbefore (3 * i + 1) (by omega) (by omega)
        rcases Option.isSome_iff_exists.mp hV with ⟨v, hv⟩
        rcases Option.isSome_iff_exists.mp hH with ⟨h, hh⟩
        simp [collectFrom, readIter, hv, hh, hfail, hCat]
    · -- iteration i parses fully; recurse
      have hV : (read_int_field (env.text i .V)).isSome = true := by
        rw [← hVat]; exact hbefore (3 * i) (le_refl _) (by omega)
      have hH : (read_int_field (env.text i .H)).isSome = true := by
        rw [← hHat]; exact hbefore (3 * i + 1) (by omega) (by omega)
      have hC : (read_int_field (env.text i .C)).isSome = true := by
        rw [← hCat]; exact hbefore (3 * i + 2) (by omega) (by omega)
      rcases Option.isSome_iff_exists.mp hV with ⟨v, hv⟩
      rcases Option.isSome_iff_exists.mp hH with ⟨h, hh⟩
      rcases Option.isSome_iff_exists.mp hC with ⟨c, hc⟩
      have hrec := ih (i + 1) (by omega) (by omega)
        (fun p hp1 hp2 => hbefore p (by omega) hp2) hfail
      rcases hcf : collectFrom env (i + 1) n with ⟨evs2, res2⟩
      rw [hcf] at hrec
      simp only at hrec
      simp [collectFrom, readIter, hv, hh, hc, hcf, hrec]

/-! ## Helper lemmas: the inner delay loop of `main` -/

/-- The reading stored by an ok measurement (only used under an
is-ok hypothesis). -/
def okValD {α : Type} [Zero α] : Except MeasError (Reading α) → Reading α
  | .ok r => r
  | .error _ => zeroReading

/-- The buffer after the inner loop stored measurements `jj .. jj+n-1`. -/
def writeBuf {α : Type} [Zero α] (meas : ℕ → Except MeasError (Reading α)) :
    ℕ → ℕ → LineBuffer α → LineBuffer α
  | _, 0, buf => buf
  | jj, n + 1, buf => writeBuf meas (jj + 1) n (setBuf buf jj (okValD (meas jj)))

theorem writeBuf_proj {α : Type} [Zero α] (meas : ℕ → Except MeasError (Reading α)) :
    ∀ (n jj : ℕ) (buf : LineBuffer α),
      (writeBuf meas jj n buf).V = setsFrom (fun j => (okValD (meas j)).v) jj n buf.V ∧
      (writeBuf meas jj n buf).H = setsFrom (fun j => (okValD (meas j)).h) jj n buf.H ∧
      (writeBuf meas jj n buf).C = setsFrom (fun j => (okValD (meas j)).c) jj n buf.C ∧
      (writeBuf meas jj n buf).eV = setsFrom (fun j => (okValD (meas j)).ev) jj n buf.eV ∧
      (writeBuf meas jj n buf).eH = setsFrom (fun j => (okValD (meas j)).eh) jj n buf.eH ∧
      (writeBuf meas jj n buf).eC = setsFrom (fun j => (okValD (meas j)).ec) jj n buf.eC := by
  intro n
  induction n with
  | zero => intro jj buf; exact ⟨rfl, rfl, rfl, rfl, rfl, rfl⟩
  | succ n ih =>
    intro jj buf
    simpa [writeBuf, setsFrom, setBuf] using
      ih (jj + 1) (setBuf buf jj (okValD (meas jj)))

/-- Closed form of the inner loop when every measurement succeeds: the
frames appended are exactly the move frames of the positions in order,
the stores are the consecutive writes, and no error occurs. -/
theorem innerLoop_ok {α : Type} [Zero α] (meas : ℕ → Except MeasError (Reading α)) :
    ∀ (poss : List ℚ) (jj : ℕ) (fs : List Frame) (buf : LineBuffer α),
      (∀ k, k < poss.length → (meas (jj + k)).isOk = true) →
      innerLoop meas poss jj fs buf =
        (fs ++ poss.map (fun p => moveFrame (truncQ p)),
         writeBuf meas jj poss.length buf, none) := by
  intro poss
  induction poss with
  | nil => intro jj fs buf _; simp [innerLoop, writeBuf]
  | cons p rest ih =>
    intro jj fs buf hok
    have h0 : (meas (jj + 0)).isOk = true := hok 0 (by simp)
    rw [Nat.add_zero] at h0
    rcases hm : meas jj with e | r
    · rw [hm] at h0; simp [Except.isOk, Except.toBool] at h0
    · have hrest : ∀ k, k < rest.length → (meas (jj + 1 + k)).isOk = true := by
        intro k hk
        have hh := hok (k + 1) (by simpa using Nat.succ_lt_succ hk)
        rwa [show jj + (k + 1) = jj + 1 + k by omega] at hh
      have hr := ih (jj + 1) (fs ++ [moveFrame (truncQ p)]) (setBuf buf jj r) hrest
      have hframes : fs ++ (p :: rest).map (fun q => moveFrame (truncQ q)) =
          fs ++ [moveFrame (truncQ p)] ++ rest.map (fun q => moveFrame (truncQ q)) := by
        simp
      have hbuf : writeBuf meas jj (p :: rest).length buf =
          writeBuf meas (jj + 1) rest.length (setBuf buf jj r) := by
        rw [List.length_cons]
        show writeBuf meas (jj + 1) rest.length (setBuf buf jj (okValD (meas jj))) = _
        rw [hm]
        rfl
      simp only [innerLoop, hm, hr]
      rw [hframes, hbuf]

/-- Closed form of the inner loop when measurement `jj + m` fails first:
moves up to and including the failing position were sent, the first `m`
stores happened, and the error propagates. -/
theorem innerLoop_err {α : Type} [Zero α] (meas : ℕ → Except MeasError (Reading α)) :
    ∀ (poss : List ℚ) (jj : ℕ) (fs : List Frame) (buf : LineBuffer α) (m : ℕ)
      (e : MeasError),
      (∀ k, k < m → (meas (jj + k)).isOk = true) →
      meas (jj + m) = .error e → m < poss.length →
      innerLoop meas poss jj fs buf =
        (fs ++ (poss.take (m + 1)).map (fun p => moveFrame (truncQ p)),
         writeBuf meas jj m buf, some e) := by
  intro poss
  induction poss with
  | nil => intro jj fs buf m e _ _ hm; simp at hm
  | cons p rest ih =>
    intro jj fs buf m e hok hfail hm
    cases m with
    | zero =>
      rw [Nat.add_zero] at hfail
      simp [innerLoop, hfail, writeBuf]
    | succ m =>
      have h0 : (meas (jj + 0)).isOk = true := hok 0 (by omega)
      rw [Nat.add_zero] at h0
      rcases hmv : meas jj with e0 | r
      · rw [hmv] at h0; simp [Except.isOk, Except.toBool] at h0
      · have hok2 : ∀ k, k < m → (meas (jj + 1 + k)).isOk = true := by
          intro k hk
          have hh := hok (k + 1) (by omega)
          rwa [show jj + (k + 1) = jj + 1 + k by omega] at hh
        have hfail2 : meas (jj + 1 + m) = .error e := by
          rwa [show jj + 1 + m = jj + (m + 1) by omega]
        have hr := ih (jj + 1) (fs ++ [moveFrame (truncQ p)]) (setBuf buf jj r)
          m e hok2 hfail2 (by simpa using Nat.lt_of_succ_lt_succ hm)
        have hframes : fs ++ ((p :: rest).take (m + 1 + 1)).map (fun q => moveFrame (truncQ q)) =
            fs ++ [moveFrame (truncQ p)] ++ (rest.take (m + 1)).map (fun q => moveFrame (truncQ q)) := by
          simp
        have hbuf : writeBuf meas jj (m + 1) buf =
            writeBuf meas (jj + 1) m (setBuf buf jj r) := by
          show writeBuf meas (jj + 1) m (setBuf buf jj (okValD (meas jj))) = _
          rw [hmv]
          rfl
        simp only [innerLoop, hmv, hr]
        rw [hframes, hbuf]

/-! ## Helper lemmas: one temperature line and the sweep -/

/-- The six line arrays all have the pre-allocated length `N_GRID`. -/
def bufSized {α : Type} (buf : LineBuffer α) : Prop :=
  buf.V.length = N_GRID ∧ buf.H.length = N_GRID ∧ buf.C.length = N_GRID ∧
  buf.eV.length = N_GRID ∧ buf.eH.length = N_GRID ∧ buf.eC.length = N_GRID

theorem initBuf_sized {α : Type} [Zero α] : bufSized (initBuf α) := by
  refine ⟨?_, ?_, ?_, ?_, ?_, ?_⟩ <;> simp [initBuf]

/-- Closed form of one fully successful temperature line: the appended
frames are a home then the moves, exactly one file is appended, its
lines are the literal header then one row per grid index holding the
measured values, and no error occurs. -/
theorem lineStep_ok {α : Type} [Zero α] (meas : ℕ → Except MeasError (Reading α))
    (f : ℕ → Reading α) (tset : ℚ) (st : RunState α)
    (hok : ∀ k, k < Y_COUNTS.length → meas k = .ok (f k))
    (hsz : bufSized st.buf) :
    (lineStep meas tset st).1.frames =
      st.frames ++ homeFrame :: Y_COUNTS.map (fun p => moveFrame (truncQ p)) ∧
    (lineStep meas tset st).1.files =
      st.files ++ [⟨pyRound1 tset, datSuffix,
        FileLine.text headerStr ::
          (List.range N_GRID).map (fun k => FileLine.row (f k))⟩] ∧
    (lineStep meas tset st).2 = none := by
  have hokb : ∀ k, k < Y_COUNTS.length → (meas (0 + k)).isOk = true := by
    intro k hk
    rw [Nat.zero_add, hok k hk]
    rfl
  have hil := innerLoop_ok meas Y_COUNTS 0 (st.frames ++ [homeFrame])
    (resetBuf st.buf) hokb
  have hproj := writeBuf_proj meas Y_COUNTS.length 0 (resetBuf st.buf)
  set buf2 := writeBuf meas 0 Y_COUNTS.length (resetBuf st.buf) with hbuf2
  obtain ⟨hV, hH, hC, heV, heH, heC⟩ := hproj
  obtain ⟨hszV, hszH, hszC, hszeV, hszeH, hszeC⟩ := hsz
  have hylen := yCounts_len
  have hng := nGrid_eq
  have hlenV : buf2.V.length = N_GRID := by
    rw [hV, setsFrom_length]
    simpa [resetBuf] using hszV
  -- each channel getD at an index below the grid size is the stored value
  have hgetV : ∀ k, k < N_GRID → buf2.V.getD k 0 = (f k).v := by
    intro k hk
    rw [hV, setsFrom_getD]
    have hc : 0 ≤ k ∧ k < 0 + Y_COUNTS.length ∧ k < (resetBuf st.buf).V.length := by
      refine ⟨Nat.zero_le k, by omega, ?_⟩
      simp [resetBuf, hszV]
      omega
    rw [if_pos hc, hok k (by omega)]
    rfl
  have hgetH : ∀ k, k < N_GRID → buf2.H.getD k 0 = (f k).h := by
    intro k hk
    rw [hH, setsFrom_getD]
    have hc : 0 ≤ k ∧ k < 0 + Y_COUNTS.length ∧ k < (resetBuf st.buf).H.length := by
      refine ⟨Nat.zero_le k, by omega, ?_⟩
      simp [resetBuf, hszH]
      omega
    rw [if_pos hc, hok k (by omega)]
    rfl
  have hgetC : ∀ k, k < N_GRID → buf2.C.getD k 0 = (f k).c := by
    intro k hk
    rw [hC, setsFrom_getD]
    have hc : 0 ≤ k ∧ k < 0 + Y_COUNTS.length ∧ k < (resetBuf st.buf).C.length := by
      refine ⟨Nat.zero_le k, by omega, ?_⟩
      simp [resetBuf, hszC]
      omega
    rw [if_pos hc, hok k (by omega)]
    rfl
  have hgeteV : ∀ k, k < N_GRID → buf2.eV.getD k 0 = (f k).ev := by
    intro k hk
    rw [heV, setsFrom_getD]
    have hc : 0 ≤ k ∧ k < 0 + Y_COUNTS.length ∧ k < (resetBuf st.buf).eV.length := by
      refine ⟨Nat.zero_le k, by omega, ?_⟩
      simp [resetBuf, hszeV]
      omega
    rw [if_pos hc, hok k (by omega)]
    rfl
  have hgeteH : ∀ k, k < N_GRID → buf2.eH.getD k 0 = (f k).eh := by
    intro k hk
    rw [heH, setsFrom_getD]
    have hc : 0 ≤ k ∧ k < 0 + Y_COUNTS.length ∧ k < (resetBuf st.buf).eH.length := by
      refine ⟨Nat.zero_le k, by omega, ?_⟩
      simp [resetBuf, hszeH]
      omega
    rw [if_pos hc, hok k (by omega)]
    rfl
  have hgeteC : ∀ k, k < N_GRID → buf2.eC.getD k 0 = (f k).ec := by
    intro k hk
    rw [heC, setsFrom_getD]
    have hc : 0 ≤ k ∧ k < 0 + Y_COUNTS.length ∧ k < (resetBuf st.buf).eC.length := by
      refine ⟨Nat.zero_le k, by omega, ?_⟩
      simp [resetBuf, hszeC]
      omega
    rw [if_pos hc, hok k (by omega)]
    rfl
  have hrows : rowsOf buf2 = (List.range N_GRID).map f := by
    rw [rowsOf, hlenV]
    refine List.map_congr_left ?_
    intro k hk
    have hk2 : k < N_GRID := List.mem_range.mp hk
    rw [hgetV k hk2, hgetH k hk2, hgetC k hk2,
        hgeteV k hk2, hgeteH k hk2, hgeteC k hk2]
  have hfile : mkFile tset buf2 =
      (⟨pyRound1 tset, datSuffix,
        FileLine.text headerStr ::
          (List.range N_GRID).map (fun k => FileLine.row (f k))⟩ : OutputFile α) := by
    rw [mkFile, savetxtLines, hrows]
    have hhd : commentsMark ++ headerStr = headerStr := rfl
    rw [hhd, List.map_map]
    rfl
  simp only [lineStep, hil, ← hbuf2]
  rw [hfile]
  simp

/-- One temperature line whose measurement at index `j` fails first: the
error propagates and no file is appended. -/
theorem lineStep_err {α : Type} [Zero α] (meas : ℕ → Except MeasError (Reading α))
    (tset : ℚ) (st : RunState α) (j : ℕ) (e : MeasError)
    (hok : ∀ k, k < j → (meas k).isOk = true)
    (hfail : meas j = .error e)
    (hj : j < Y_COUNTS.length) :
    (lineStep meas tset st).1.files = st.files ∧
    (lineStep meas tset st).2 = some e := by
  have hokb : ∀ k, k < j → (meas (0 + k)).isOk = true := by
    intro k hk
    rw [Nat.zero_add]
    exact hok k hk
  have hfail0 : meas (0 + j) = .error e := by rwa [Nat.zero_add]
  have hil := innerLoop_err meas Y_COUNTS 0 (st.frames ++ [homeFrame])
    (resetBuf st.buf) j e hokb hfail0 hj
  simp only [lineStep, hil]
  exact ⟨trivial, trivial⟩

/-- The sweep aborts at the first failing line. -/
theorem sweepLoop_cons_err {α : Type} [Zero α]
    (meas : ℕ → ℕ → Except MeasError (Reading α)) (t : ℚ) (ts : List ℚ)
    (li : ℕ) (st st2 : RunState α) (e : MeasError)
    (h : lineStep (meas li) t st = (st2, some e)) :
    sweepLoop meas (t :: ts) li st = (st2, some e) := by
  rw [sweepLoop, h]

theorem mainRun_teardown {α : Type} [Zero α]
    (meas : ℕ → ℕ → Except MeasError (Reading α)) (tEnv : TeardownEnv) :
    (mainRun meas tEnv).teardown = runTeardown tEnv := rfl

theorem mainRun_outcome {α : Type} [Zero α]
    (meas : ℕ → ℕ → Except MeasError (Reading α)) (tEnv : TeardownEnv) :
    (mainRun meas tEnv).outcome = (sweepLoop meas T_vec 0 (initState α)).2 := rfl

theorem mainRun_files {α : Type} [Zero α]
    (meas : ℕ → ℕ → Except MeasError (Reading α)) (tEnv : TeardownEnv) :
    (mainRun meas tEnv).files = (sweepLoop meas T_vec 0 (initState α)).1.files := rfl

/-! ## Concrete inputs used by witnesses and counterexamples -/

def tenStr : String := "10"
def badStr : String := "x"
def fiveStr : String := "5"

/-- A source whose window exists and whose every read returns `"10"`. -/
def envTen : AutoItEnv := ⟨true, fun _ _ => tenStr⟩

/-- A source whose window does not exist and whose reads return `"5"`. -/
def envNoWindow : AutoItEnv := ⟨false, fun _ _ => fiveStr⟩

/-- A source whose second-iteration V read is unparsable text. -/
def envBad : AutoItEnv :=
  ⟨true, fun i ch => if i = 1 ∧ ch = Channel.V then badStr else tenStr⟩

def tenVals : ℕ → Channel → ℤ := fun _ _ => 10

def r10Q : Reading ℚ := ⟨10, 10, 5, 0, 0, 0⟩

/-- A measurement oracle that always succeeds. -/
def okOracleQ : ℕ → ℕ → Except MeasError (Reading ℚ) := fun _ _ => .ok zeroReading

def okMeasQ : ℕ → Except MeasError (Reading ℚ) := fun _ => .ok r10Q

/-- A measurement oracle failing at delay index 1 with a parse error. -/
def measBad : ℕ → ℕ → Except MeasError (Reading ℚ) :=
  fun _ jj => if jj = 0 then .ok r10Q else .error (.parseError badStr)

/-! ## C9 -/

/-- C9: with the reference constants, the total travel is not an exact
multiple of the step, the delay-grid size is `floor(travel/step) + 1`,
and this coincides with `N_GRID = round(N_PAS/STEP) + 1`. -/
theorem c9_grid_size_arith :
    (¬ ∃ k : ℤ, N_PAS_COUNTS = (k : ℚ) * STEP_COUNTS) ∧
    Y_COUNTS.length = (⌊N_PAS_COUNTS / STEP_COUNTS⌋ + 1).toNat ∧
    Y_COUNTS.length = N_GRID := by
  refine ⟨?_, ?_, ?_⟩
  · rintro ⟨k, hk⟩
    rw [nPas_eq, STEP_COUNTS] at hk
    have h2 : (1600000 : ℚ) = (k : ℚ) * 30000 := by
      field_simp at hk
      linarith
    have h3 : (1600000 : ℤ) = k * 30000 := by exact_mod_cast h2
    omega
  · rw [yCounts_len, floor_quot]
    decide
  · rw [yCounts_len, nGrid_eq]

/-! ## C10 -/

/-- C10: the number of delay positions iterated equals the pre-allocated
line-array length `N_GRID`, so every inner-loop write index `jj` is in
bounds. -/
theorem c10_indices_in_bounds :
    Y_COUNTS.length = N_GRID ∧
    (initBuf ℚ).V.length = N_GRID ∧
    (∀ jj, jj < Y_COUNTS.length → jj < N_GRID) := by
  refine ⟨?_, ?_, ?_⟩
  · rw [yCounts_len, nGrid_eq]
  · simp [initBuf]
  · intro jj h
    rw [yCounts_len] at h
    rw [nGrid_eq]
    omega

theorem c10_witness : 3 < N_GRID :=
  c10_indices_in_bounds.2.2 3 (by rw [yCounts_len]; omega)

/-! ## C1 -/

/-- C1 counterexample: in a run where the sweep completes and nothing
fails at teardown, no close call on the temperature-controller session is
performed by the `finally` block (only the Zaber port is closed; the
TC200 block merely prints a notice). -/
theorem c1_counterexample :
    (mainRun okOracleQ ⟨false, false⟩).teardown.tcCloseAttempted = false := by
  rw [mainRun_teardown]
  rfl

/-- C1 (amended): on both exit paths of the sweep the teardown block
runs: the actuator-transport close is always attempted, the
temperature-controller teardown step (a report only, not a close) is
attempted even if the transport close failed, close failures are
reported and never re-raised, and an in-flight loop failure propagates
unmasked. -/
theorem c1_teardown_amended {α : Type} [Zero α]
    (meas : ℕ → ℕ → Except MeasError (Reading α)) (tEnv : TeardownEnv) :
    (mainRun meas tEnv).teardown.zaberCloseAttempted = true ∧
    (mainRun meas tEnv).teardown.tcStepAttempted = true ∧
    (mainRun meas tEnv).teardown.zaberErrorReported = tEnv.zaberCloseFails ∧
    (mainRun meas tEnv).teardown.tcErrorReported = tEnv.tcStepFails ∧
    (mainRun meas tEnv).outcome = (sweepLoop meas T_vec 0 (initState α)).2 :=
  ⟨rfl, rfl, rfl, rfl, rfl⟩

/-! ## C4 -/

/-- C4: when the reading source reports that the window cannot be
located, the check raises the source-unavailable error, but the
surrounding `except Exception: pass` swallows it and the sample call
proceeds to read as if the window were present — contradicting the
claim that the call fails fatally. -/
theorem c4_window_check_swallowed :
    winCheck envNoWindow defaultWindowSpec =
      .error (.sourceUnavailable defaultWindowSpec) ∧
    winCheckGuarded envNoWindow defaultWindowSpec = .ok () ∧
    (meas_dirSamples envNoWindow 2).2 = .ok ([5, 5], [5, 5], [5, 5]) := by
  refine ⟨rfl, rfl, ?_⟩
  rfl

/-! ## C2 -/

theorem meas_dirSamples_pos (env : AutoItEnv) (times : ℤ) (hpos : 0 < times) :
    meas_dirSamples env times = collectFrom env 0 times.toNat := by
  rw [meas_dirSamples, if_neg (by omega : ¬ times ≤ 0), winCheckGuarded_ok]

theorem np_spec_eq (n : ℕ) (xs : List ℝ) (h : xs.length = n) :
    npMean xs = specMean n xs ∧ npStd xs = specPopStd n xs := by
  constructor
  · rw [npMean, specMean, h]
  · rw [npStd, specPopStd, npVarPop, npMean, h, specMean]

theorem chanSeq_len (vals : ℕ → Channel → ℤ) (ch : Channel) (n : ℕ) :
    (intsToR (chanSeq vals ch n)).length = n := by
  simp [intsToR, chanSeq]

/-- C2: for every `repetitions > 0` and every sequence of scalars
supplied by the reading source, `meas_dir` returns per channel exactly
the arithmetic mean of that channel and the population standard
deviation with divisor `repetitions` (not `repetitions - 1`). -/
theorem c2_sampler_mean_popstd (env : AutoItEnv) (times : ℤ)
    (vals : ℕ → Channel → ℤ)
    (hpos : 0 < times)
    (hparse : ∀ i, i < times.toNat → ∀ ch,
      read_int_field (env.text i ch) = some (vals i ch)) :
    meas_dir env times = .ok
      ⟨specMean times.toNat (intsToR (chanSeq vals .V times.toNat)),
       specMean times.toNat (intsToR (chanSeq vals .H times.toNat)),
       specMean times.toNat (intsToR (chanSeq vals .C times.toNat)),
       specPopStd times.toNat (intsToR (chanSeq vals .V times.toNat)),
       specPopStd times.toNat (intsToR (chanSeq vals .H times.toNat)),
       specPopStd times.toNat (intsToR (chanSeq vals .C times.toNat))⟩ := by
  have hco := collectFrom_ok env vals times.toNat 0
    (fun p h1 h2 ch => hparse p (by omega) ch)
  have hs2 : (meas_dirSamples env times).2 =
      .ok (chanSeq vals .V times.toNat, chanSeq vals .H times.toNat,
           chanSeq vals .C times.toNat) := by
    rw [meas_dirSamples_pos env times hpos, hco]
    simp [chanSeq, List.range_eq_range']
  have hV := np_spec_eq times.toNat (intsToR (chanSeq vals .V times.toNat))
    (chanSeq_len vals .V times.toNat)
  have hH := np_spec_eq times.toNat (intsToR (chanSeq vals .H times.toNat))
    (chanSeq_len vals .H times.toNat)
  have hC := np_spec_eq times.toNat (intsToR (chanSeq vals .C times.toNat))
    (chanSeq_len vals .C times.toNat)
  simp only [meas_dir, hs2]
  rw [hV.1, hH.1, hC.1, hV.2, hH.2, hC.2]

theorem c2_witness :
    meas_dir envTen 2 = .ok
      ⟨specMean (2 : ℤ).toNat (intsToR (chanSeq tenVals .V (2 : ℤ).toNat)),
       specMean (2 : ℤ).toNat (intsToR (chanSeq tenVals .H (2 : ℤ).toNat)),
       specMean (2 : ℤ).toNat (intsToR (chanSeq tenVals .C (2 : ℤ).toNat)),
       specPopStd (2 : ℤ).toNat (intsToR (chanSeq tenVals .V (2 : ℤ).toNat)),
       specPopStd (2 : ℤ).toNat (intsToR (chanSeq tenVals .H (2 : ℤ).toNat)),
       specPopStd (2 : ℤ).toNat (intsToR (chanSeq tenVals .C (2 : ℤ).toNat))⟩ :=
  c2_sampler_mean_popstd envTen 2 tenVals (by decide)
    (fun _ _ _ => rfl)

/-! ## C8 -/

/-- C8 counterexample: a sample call with `times = 2` repetitions (in
the scope `repetitions > 1` of the claim) sleeps after its second and
last iteration — the trace ends with a sleep event right after the last
read, where the claim says the delay is slept between consecutive
iterations but not after the last one. -/
theorem c8_counterexample :
    (meas_dirSamples envTen 2).1 =
      [MeasEvent.read 0 .V, .read 0 .H, .read 0 .C, .sleep,
       MeasEvent.read 1 .V, .read 1 .H, .read 1 .C, .sleep] ∧
    (meas_dirSamples envTen 2).1.getLast? = some MeasEvent.sleep := by
  constructor
  · rfl
  · rfl

/-- C8 (amended): in every call with `repetitions > 1` whose reads all
parse, the inter-read delay is slept between consecutive sampling
iterations and also after the last one — the sleep sits inside the loop
body, so the trace is three reads then a sleep per iteration, the final
iteration included. -/
theorem c8_sleep_every_iteration (env : AutoItEnv) (times : ℤ)
    (vals : ℕ → Channel → ℤ)
    (hpos : 1 < times)
    (hparse : ∀ i, i < times.toNat → ∀ ch,
      read_int_field (env.text i ch) = some (vals i ch)) :
    (meas_dirSamples env times).1 =
      ((List.range times.toNat).map
        (fun i => [MeasEvent.read i .V, .read i .H, .read i .C, .sleep])).flatten := by
  have hco := collectFrom_ok env vals times.toNat 0
    (fun p h1 h2 ch => hparse p (by omega) ch)
  rw [meas_dirSamples_pos env times (by omega), hco]
  simp [List.range_eq_range']

theorem c8_witness :
    (meas_dirSamples envTen 2).1 =
      ((List.range (2 : ℤ).toNat).map
        (fun i => [MeasEvent.read i .V, .read i .H, .read i .C, .sleep])).flatten :=
  c8_sleep_every_iteration envTen 2 tenVals (by decide) (fun _ _ _ => rfl)

/-! ## C5 -/

/-- C5: during one temperature line whose measurements all succeed, the
frames written to the actuator transport are exactly one home frame
(command code 1, broadcast device 0, no payload) followed by one
move-absolute frame (command code 20, broadcast device 0, payload the
integer position count) per delay-grid position in order, and nothing
else; the line completes without error. -/
theorem c5_frames_per_line {α : Type} [Zero α]
    (meas : ℕ → Except MeasError (Reading α)) (tset : ℚ) (st : RunState α)
    (hok : ∀ k, k < Y_COUNTS.length → (meas k).isOk = true) :
    (lineStep meas tset st).1.frames =
      st.frames ++ homeFrame :: Y_COUNTS.map (fun p => moveFrame (truncQ p)) ∧
    (lineStep meas tset st).2 = none := by
  have hokb : ∀ k, k < Y_COUNTS.length → (meas (0 + k)).isOk = true := by
    intro k hk
    rw [Nat.zero_add]
    exact hok k hk
  have hil := innerLoop_ok meas Y_COUNTS 0 (st.frames ++ [homeFrame])
    (resetBuf st.buf) hokb
  simp only [lineStep, hil]
  exact ⟨by simp, by trivial⟩

theorem c5_witness :
    (lineStep okMeasQ 45 (initState ℚ)).1.frames =
      (initState ℚ).frames ++
        homeFrame :: Y_COUNTS.map (fun p => moveFrame (truncQ p)) ∧
    (lineStep okMeasQ 45 (initState ℚ)).2 = none :=
  c5_frames_per_line okMeasQ 45 (initState ℚ) (fun _ _ => rfl)

/-! ## C6 -/

/-- C6: every completed temperature line appends exactly one output
file, keyed by `round(tset, 1)` with the fixed name suffix, whose first
line is the literal header `V,H,C,eV,eH,eC` with an empty comments mark,
followed by one row of the six measured channel values per delay-grid
index in index order and nothing else. -/
theorem c6_one_file_per_line {α : Type} [Zero α]
    (meas : ℕ → Except MeasError (Reading α)) (f : ℕ → Reading α)
    (tset : ℚ) (st : RunState α)
    (hok : ∀ k, k < Y_COUNTS.length → meas k = .ok (f k))
    (hsz : bufSized st.buf) :
    (lineStep meas tset st).1.files =
      st.files ++ [⟨pyRound1 tset, datSuffix,
        FileLine.text headerStr ::
          (List.range N_GRID).map (fun k => FileLine.row (f k))⟩] ∧
    (lineStep meas tset st).2 = none :=
  ⟨(lineStep_ok meas f tset st hok hsz).2.1,
   (lineStep_ok meas f tset st hok hsz).2.2⟩

def fTen : ℕ → Reading ℚ := fun _ => r10Q

theorem c6_witness :
    (lineStep okMeasQ 45 (initState ℚ)).1.files =
      (initState ℚ).files ++ [⟨pyRound1 45, datSuffix,
        FileLine.text headerStr ::
          (List.range N_GRID).map (fun k => FileLine.row (fTen k))⟩] ∧
    (lineStep okMeasQ 45 (initState ℚ)).2 = none :=
  c6_one_file_per_line okMeasQ fTen 45 (initState ℚ) (fun _ _ => rfl)
    initBuf_sized

/-! ## C7 -/

/-- All six line arrays hold the zero value at index `k`. -/
def allZeroAt {α : Type} [Zero α] (buf : LineBuffer α) (k : ℕ) : Prop :=
  buf.V.getD k 0 = 0 ∧ buf.H.getD k 0 = 0 ∧ buf.C.getD k 0 = 0 ∧
  buf.eV.getD k 0 = 0 ∧ buf.eH.getD k 0 = 0 ∧ buf.eC.getD k 0 = 0

theorem getD_set_ne {β : Type} (l : List β) (j : ℕ) (v : β) (k : ℕ) (d : β)
    (hjk : j ≠ k) : (l.set j v).getD k d = l.getD k d := by
  rw [List.getD_eq_getElem?_getD, List.getElem?_set, if_neg hjk,
    ← List.getD_eq_getElem?_getD]

theorem resetBuf_allZero {α : Type} [Zero α] (buf : LineBuffer α) (k : ℕ) :
    allZeroAt (resetBuf buf) k :=
  ⟨getD_map_zero buf.V k, getD_map_zero buf.H k, getD_map_zero buf.C k,
   getD_map_zero buf.eV k, getD_map_zero buf.eH k, getD_map_zero buf.eC k⟩

theorem applyWrites_zero {α : Type} [Zero α] (k : ℕ) :
    ∀ (ws : List (ℕ × Reading α)) (b : LineBuffer α),
      (∀ w ∈ ws, w.1 ≠ k) → allZeroAt b k → allZeroAt (applyWrites ws b) k := by
  intro ws
  induction ws with
  | nil => intro b _ hb; exact hb
  | cons w ws ih =>
    intro b hne hb
    have hw : w.1 ≠ k := hne w (by simp)
    obtain ⟨h1, h2, h3, h4, h5, h6⟩ := hb
    have hb2 : allZeroAt (setBuf b w.1 w.2) k :=
      ⟨(getD_set_ne b.V w.1 w.2.v k 0 hw).trans h1,
       (getD_set_ne b.H w.1 w.2.h k 0 hw).trans h2,
       (getD_set_ne b.C w.1 w.2.c k 0 hw).trans h3,
       (getD_set_ne b.eV w.1 w.2.ev k 0 hw).trans h4,
       (getD_set_ne b.eH w.1 w.2.eh k 0 hw).trans h5,
       (getD_set_ne b.eC w.1 w.2.ec k 0 hw).trans h6⟩
    exact ih (setBuf b w.1 w.2) (fun w2 hw2 => hne w2 (by simp [hw2])) hb2

/-- C7: `fill(0)` leaves every index of the line buffer at zero, and any
sequence of stores that never touches index `k` leaves index `k` at the
zero value — never at a residual value from a previous line.  (In
`lineStep` the buffer handed to the inner loop is exactly
`resetBuf st.buf`.) -/
theorem c7_reset_no_residual {α : Type} [Zero α] (buf : LineBuffer α)
    (ws : List (ℕ × Reading α)) (k : ℕ)
    (hk : ∀ w ∈ ws, w.1 ≠ k) :
    allZeroAt (resetBuf buf) k ∧ allZeroAt (applyWrites ws (resetBuf buf)) k :=
  ⟨resetBuf_allZero buf k,
   applyWrites_zero k ws (resetBuf buf) hk (resetBuf_allZero buf k)⟩

def dirtyBufQ : LineBuffer ℚ := ⟨[1, 1], [1, 1], [1, 1], [1, 1], [1, 1], [1, 1]⟩

def w0Q : ℕ × Reading ℚ := (0, ⟨2, 2, 2, 2, 2, 2⟩)

theorem c7_witness :
    allZeroAt (resetBuf dirtyBufQ) 1 ∧
    allZeroAt (applyWrites [w0Q] (resetBuf dirtyBufQ)) 1 :=
  c7_reset_no_residual dirtyBufQ [w0Q] 1 (by decide)

/-! ## C3 -/

/-- C3: a scalar read that cannot be parsed fails the whole sample call
with the parse error of that read and returns no partial reading; inside
the sweep a failing measurement aborts the run, the in-progress line is
never persisted (no file at all is written when the first line fails),
and the teardown of both resources still runs. -/
theorem c3_parse_abort {α : Type} [Zero α]
    (env : AutoItEnv) (times : ℤ) (k : ℕ)
    (meas : ℕ → ℕ → Except MeasError (Reading α))
    (tEnv : TeardownEnv) (j : ℕ) (e : MeasError)
    (hpos : 0 < times)
    (hk : k < 3 * times.toNat)
    (hbefore : ∀ p, p < k → (read_int_field (readAt env p)).isSome = true)
    (hfail : read_int_field (readAt env k) = none)
    (hj : j < Y_COUNTS.length)
    (hjok : ∀ i, i < j → (meas 0 i).isOk = true)
    (hjfail : meas 0 j = .error e) :
    meas_dir env times = .error (.parseError (readAt env k)) ∧
    (mainRun meas tEnv).files = [] ∧
    (mainRun meas tEnv).outcome = some e ∧
    (mainRun meas tEnv).teardown.zaberCloseAttempted = true ∧
    (mainRun meas tEnv).teardown.tcStepAttempted = true := by
  have hcf := collectFrom_err env k times.toNat 0 (by omega) (by omega)
    (fun p h1 h2 => hbefore p h2) hfail
  have hsamp : (meas_dirSamples env times).2 =
      .error (.parseError (readAt env k)) := by
    rw [meas_dirSamples_pos env times hpos]
    exact hcf
  obtain ⟨t, ts, hT⟩ := tVec_cons
  have hls := lineStep_err (meas 0) t (initState α) j e hjok hjfail hj
  rcases hlf : lineStep (meas 0) t (initState α) with ⟨st2, r⟩
  rw [hlf] at hls
  simp only at hls
  have hsw : sweepLoop meas T_vec 0 (initState α) = (st2, some e) := by
    rw [hT]
    exact sweepLoop_cons_err meas t ts 0 (initState α) st2 e
      (by rw [hlf, hls.2])
  refine ⟨?_, ?_, ?_, rfl, rfl⟩
  · simp only [meas_dir, hsamp]
  · rw [mainRun_files, hsw, hls.1]
    rfl
  · rw [mainRun_outcome, hsw]

theorem c3_witness :
    meas_dir envBad 5 = .error (.parseError (readAt envBad 3)) ∧
    (mainRun measBad ⟨false, false⟩).files = [] ∧
    (mainRun measBad ⟨false, false⟩).outcome =
      some (.parseError badStr) ∧
    (mainRun measBad ⟨false, false⟩).teardown.zaberCloseAttempted = true ∧
    (mainRun measBad ⟨false, false⟩).teardown.tcStepAttempted = true :=
  c3_parse_abort envBad 5 3 measBad ⟨false, false⟩ 1 (.parseError badStr)
    (by decide) (by decide) (by decide) (by decide)
    (by rw [yCounts_len]; omega) (by decide) rfl

end HomScan
